import Mathlib

/-!
Verification of the notification-delivery pipeline of the Domoticz Google
Audio plugin (`plugin.py`): the byte-range HTTP media server inside
`BasePlugin.onMessage`, the notification queue drained by
`BasePlugin.handleMessage` and `BasePlugin.onStop`, the playback-completion
poll loop, the `GoogleDevice.StoreState`/`RestoreState` protocol, and the
`UpdateDevice` helper.

Python strings are embedded as `List Char`; file contents as `List Nat`
(byte values); Python's float-valued times and volumes as `ℚ`; fallible
Python code (paths that raise an exception that is swallowed by a
surrounding `except`) returns `Option`.
-/

namespace GooglePlugin

/-! ### Python string primitives used by `onMessage`

Each helper transliterates the exact Python operation used by the source,
over `List Char`. -/

/-- Python `s.find(c)`: index of the first occurrence of `c`, `-1` if absent. -/
def pyFind (cs : List Char) (c : Char) : Int :=
  match cs with
  | [] => -1
  | a :: as =>
    if a = c then 0
    else
      let r := pyFind as c
      if r = -1 then -1 else r + 1

/-- Python `s.split(c, 1)`: the part before the first occurrence of `c`, and
the part after it (`none` when `c` does not occur, in which case the Python
list has a single element and `parts[1]` raises `IndexError`). -/
def pySplitOnce (cs : List Char) (c : Char) : List Char × Option (List Char) :=
  match cs with
  | [] => ([], none)
  | a :: as =>
    if a = c then ([], some as)
    else
      let r := pySplitOnce as c
      (a :: r.1, r.2)

/-- Accumulator for decimal-digit parsing. -/
def digitsVal : List Char → Nat → Option Nat
  | [], acc => some acc
  | c :: cs, acc =>
    if c.isDigit then digitsVal cs (acc * 10 + (c.toNat - '0'.toNat)) else none

/-- Python `int(s)` on the strings this server receives: the value of a
nonempty string of decimal digits, `none` when `int` raises `ValueError`. -/
def digitsToNat? (cs : List Char) : Option Nat :=
  if cs = [] then none else digitsVal cs 0

/-- Python `s.split('?')[0]`: everything before the first question mark. -/
def stripQuery (cs : List Char) : List Char :=
  cs.takeWhile (fun c => c ≠ '?')

/-- Python `s.lstrip('/')`. -/
def lstripSlash (cs : List Char) : List Char :=
  cs.dropWhile (fun c => c = '/')

/-- POSIX `os.path.join(a, b)` for a two-argument call. -/
def osPathJoin (a b : List Char) : List Char :=
  if b.head? = some '/' then b
  else if a = [] ∨ a.getLast? = some '/' then a ++ b
  else a ++ '/' :: b

/-! ### Media server (`BasePlugin.onMessage`, `plugin.py` lines 736-795) -/

/-- `KB_TO_XMIT = 1024 * 16`: the fixed transfer quantum. -/
def KB_TO_XMIT : Nat := 1024 * 16

/-- The request dictionary handed to `onMessage`: the keys `Verb`, `URL` and
`Headers` may each be absent. Headers are kept as an association list. -/
structure HttpData where
  verb : Option (List Char)
  url : Option (List Char)
  headers : Option (List (List Char × List Char))

/-- One call to `Connection.Send`: the error paths send a status only
(empty header list, empty body). -/
structure HttpResponse where
  status : List Char
  headers : List (List Char × List Char)
  body : List Nat
deriving DecidableEq

/-- Dictionary lookup (`Data['Headers']['Range']`), first match wins. -/
def lookupHeader (hs : List (List Char × List Char)) (k : List Char) :
    Option (List Char) :=
  match hs with
  | [] => none
  | (k', v) :: rest => if k' = k then some v else lookupHeader rest k

/-- `filePath = os.path.join(messagesDir, Data['URL'].split('?')[0].lstrip('/'))`. -/
def resolveFilePath (messagesDir url : List Char) : List Char :=
  osPathJoin messagesDir (lstripSlash (stripQuery url))

/-- Python `file.seek(pos)` followed by `file.read(n)`: a negative `n` reads
to end-of-file (which is what the source does when the clamped end position
falls before the start position). -/
def fileRead (content : List Nat) (pos : Nat) (n : Int) : List Nat :=
  if n < 0 then (content.drop pos) else (content.drop pos).take n.toNat

/-- The `noCacheHeaders` dictionary built for every successful response, in
insertion order. -/
def noCacheHeaders : List (List Char × List Char) :=
  [("Content-Type".data, "audio/mpeg".data),
   ("Accept-Ranges".data, "bytes".data),
   ("Cache-Control".data, "no-store, no-cache, must-revalidate".data),
   ("Pragma".data, "no-cache".data),
   ("Expires".data, "0".data)]

/-- The value of the `Content-Range` header:
`f"bytes {fileStartPosition}-{fileEndPosition}/{messageFileSize}"`. -/
def contentRangeValue (startPos : Nat) (endPos : Int) (size : Nat) : List Char :=
  "bytes ".data ++ (toString startPos).data ++ "-".data ++
    (toString endPos).data ++ "/".data ++ (toString size).data

/-- The range computation of `onMessage` lines 774-782: extract the text
after `=`, split once on `-`, parse `start` (default `0` when the first part
is empty) and compute the end position (`min(int(parts[1]), size-1)` when an
end is given, `min(start + KB_TO_XMIT - 1, size-1)` otherwise). Returns
`none` when the Python code raises (`parts[1]` out of range, or `int()`
failing), which `onMessage` swallows without sending a response. -/
def parseRangeHeader (rangeHeader : List Char) (messageFileSize : Nat) :
    Option (Nat × Int) :=
  let rangeSpec := rangeHeader.drop (pyFind rangeHeader '=' + 1).toNat
  match pySplitOnce rangeSpec '-' with
  | (_, none) => none
  | (p0, some p1) =>
    match (if p0 = [] then some 0 else digitsToNat? p0) with
    | none => none
    | some fileStartPosition =>
      if p1 = [] then
        some (fileStartPosition,
          min ((fileStartPosition : Int) + (KB_TO_XMIT : Int) - 1)
              ((messageFileSize : Int) - 1))
      else
        match digitsToNat? p1 with
        | none => none
        | some e => some (fileStartPosition, min (e : Int) ((messageFileSize : Int) - 1))

/-- The success path of `onMessage` (lines 764-795): serve `content` either
whole (`200 OK`) or as a byte range (`206 Partial Content`). -/
def serveFile (headers : List (List Char × List Char)) (content : List Nat) :
    Option HttpResponse :=
  let messageFileSize := content.length
  match lookupHeader headers "Range".data with
  | some rangeHeader =>
    match parseRangeHeader rangeHeader messageFileSize with
    | none => none
    | some (fileStartPosition, fileEndPosition) =>
      let chunkSize : Int := fileEndPosition - (fileStartPosition : Int) + 1
      let fileContent := fileRead content fileStartPosition chunkSize
      some { status := "206 Partial Content".data,
             headers := noCacheHeaders ++
               [("Content-Range".data,
                 contentRangeValue fileStartPosition fileEndPosition messageFileSize),
                ("Content-Length".data, (toString fileContent.length).data)],
             body := fileContent }
  | none =>
    some { status := "200 OK".data,
           headers := noCacheHeaders ++
             [("Content-Length".data, (toString messageFileSize).data)],
           body := content }

/-- `BasePlugin.onMessage` for a media-server connection: validates the
request dictionary in source order (`Verb` present, `Verb = GET`, `URL`
present, `Headers` present, file exists), sending a bare status line on
failure, then serves the file. `fs` maps a (non-normalized) file path to
the file's bytes when `os.path.exists` holds for it. The result is `none`
when request handling raised an exception (logged, no response sent). -/
def onMessageServer (messagesDir : List Char)
    (fs : List Char → Option (List Nat)) (data : HttpData) :
    Option HttpResponse :=
  match data.verb with
  | none => some { status := "400 Bad Request".data, headers := [], body := [] }
  | some v =>
    if v ≠ "GET".data then
      some { status := "405 Method Not Allowed".data, headers := [], body := [] }
    else
      match data.url with
      | none => some { status := "400 Bad Request".data, headers := [], body := [] }
      | some url =>
        match data.headers with
        | none => some { status := "400 Bad Request".data, headers := [], body := [] }
        | some headers =>
          match fs (resolveFilePath messagesDir url) with
          | none => some { status := "404 File Not Found".data, headers := [], body := [] }
          | some content => serveFile headers content

/-! ### Path normalization (for the parent-path escape question)

The source never normalizes the joined path; the operating system does when
the file is opened. `normSegments` computes the normal form a POSIX kernel
assigns to an absolute path: `.` and empty segments vanish and `..` removes
the preceding segment. A path stays inside a directory precisely when the
directory's normalized segments are an initial segment of the path's. -/

/-- Split an absolute path into its `/`-separated segments. -/
def pathSegments (p : List Char) : List (List Char) :=
  (p.splitOn '/').filter (fun s => s ≠ [] ∧ s ≠ ".".data)

/-- Resolve `..` segments the way the filesystem does. -/
def normSegments (p : List Char) : List (List Char) :=
  (pathSegments p).foldl
    (fun stack seg => if seg = "..".data then stack.dropLast else stack ++ [seg])
    []

/-- The file named by `p` lies inside directory `dir` (after resolving
`..` segments). -/
def insideDir (dir p : List Char) : Prop :=
  (normSegments p).take (normSegments dir).length = normSegments dir

instance (dir p : List Char) : Decidable (insideDir dir p) := by
  unfold insideDir; infer_instance

/-! ### Playback-completion poll loop (`BasePlugin.handleMessage`, lines 599-631)

Times are rationals (seconds). The observation stream `status : ℕ → MediaStatus`
gives the value of `mc.status` right after the `i`-th `mc.update_status()`
call; `stop : ℕ → Bool` samples `self.stop_event.is_set()` at the `j`-th
check the loop performs (two checks per iteration: the loop guard, and the
check right after the half-second wait). Each iteration advances the clock
by exactly the `0.5`-second wait. The loop is driven by explicit fuel; a
`none` result means the fuel ran out before the loop exited. -/

/-- The fields of `mc.status` the loop reads. -/
structure MediaStatus where
  player_is_playing : Bool
  player_is_paused : Bool
  player_is_idle : Bool
  duration : Option ℚ

/-- `estimatedDuration = fileSize * 8 / 64000` (line 600). -/
def estimatedDuration (fileSize : Nat) : ℚ :=
  (fileSize : ℚ) * 8 / 64000

/-- The initial deadline `max(15, estimatedDuration + 10)` (line 608). -/
def initialDeadline (est : ℚ) : ℚ :=
  max 15 (est + 10)

/-- The loop's mutable locals: the clock, `endTime`, `sawPlaying` and
`durationSet`, plus `resets`, an instrumentation counter recording how many
times `endTime` was recomputed from a reported duration. -/
structure PollState where
  t : ℚ
  endTime : ℚ
  sawPlaying : Bool
  durationSet : Bool
  resets : Nat

/-- The loop's outcome: `playbackCompleted`, the number of the check at
which the loop exited (`ticks` iterations were entered), and the final
locals. -/
structure PollResult where
  playbackCompleted : Bool
  ticks : Nat
  final : PollState

/-- The effect of one loop body (lines 611-619) on the locals, entered at
iteration `i`: the clock advances by the half-second wait, `sawPlaying`
latches a playing/paused report, and — once `sawPlaying` holds, the deadline
has not been recomputed yet and a duration is reported — `endTime` is
recomputed to now plus the reported duration plus five seconds. -/
def pollStepState (status : ℕ → MediaStatus) (i : ℕ) (s : PollState) :
    PollState :=
  let st := status i
  let t' := s.t + 1 / 2
  let sawPlaying := s.sawPlaying || (st.player_is_playing || st.player_is_paused)
  let recompute := sawPlaying && !s.durationSet && st.duration.isSome
  { t := t',
    endTime := if recompute then t' + st.duration.getD 0 + 5 else s.endTime,
    sawPlaying := sawPlaying,
    durationSet := if recompute then true else s.durationSet,
    resets := if recompute then s.resets + 1 else s.resets }

/-- The poll loop of `handleMessage` lines 610-629, one case per exit path:
guard failure (deadline reached or stop set), stop observed after the wait,
or idle-after-playing (which breaks after the same body has updated the
locals). `i` numbers the iterations from the start of the loop. -/
def pollLoop (status : ℕ → MediaStatus) (stop : ℕ → Bool) :
    Nat → Nat → PollState → Option PollResult
  | 0, _, _ => none
  | fuel + 1, i, s =>
    if s.t < s.endTime ∧ stop (2 * i) = false then
      if stop (2 * i + 1) then
        some { playbackCompleted := false, ticks := i + 1,
               final := { s with t := s.t + 1 / 2 } }
      else
        let s' := pollStepState status i s
        if s'.sawPlaying && (status i).player_is_idle then
          some { playbackCompleted := true, ticks := i + 1, final := s' }
        else
          pollLoop status stop fuel (i + 1) s'
    else
      some { playbackCompleted := false, ticks := i, final := s }

/-- The locals as initialized on lines 606-609, entering the loop at time
`t0` with estimated duration `est`. -/
def pollInit (t0 est : ℚ) : PollState :=
  { t := t0, endTime := t0 + initialDeadline est, sawPlaying := false,
    durationSet := false, resets := 0 }

/-- The status reports playing or paused (the condition of line 615). -/
def playActive (st : MediaStatus) : Bool :=
  st.player_is_playing || st.player_is_paused

/-- A status report of a player that is idle and reports no duration. -/
def idleMediaStatus : MediaStatus :=
  { player_is_playing := false, player_is_paused := false,
    player_is_idle := true, duration := none }

/-- A status report of an actively playing player with a reported duration
and an idle flag as given. -/
def playingMediaStatus (idle : Bool) (d : Option ℚ) : MediaStatus :=
  { player_is_playing := true, player_is_paused := false,
    player_is_idle := idle, duration := d }

/-- `sawPlaying` holds at poll tick `k` in a run whose initial `sawPlaying`
was `saw0` and whose first tick was `i`: either it held on entry, or some
tick from `i` through `k` reported playing or paused. -/
def sawFrom (status : ℕ → MediaStatus) (saw0 : Bool) (i k : ℕ) : Prop :=
  saw0 = true ∨ ∃ j, i ≤ j ∧ j ≤ k ∧ playActive (status j) = true

/-- Playing or paused has been observed by poll tick `k` (from the start of
the loop, where `sawPlaying` is initialized to `False`). -/
def sawPlayingBy (status : ℕ → MediaStatus) (k : ℕ) : Prop :=
  ∃ j, j ≤ k ∧ playActive (status j) = true

/-! ### Notification queue and worker loop (`handleMessage` lines 557-650,
`onStop` lines 908-939)

The queue is `queue.Queue`: `put` appends an item and increments the
`unfinished_tasks` counter, `task_done` decrements it, and `join` returns
precisely when the counter is zero. The worker's loop iteration is split at
its suspension points into three transitions, so that `onStop`'s actions can
interleave with a worker blocked in `get`: `workerGuard` evaluates the
`while` condition of line 557, `workerGet` performs the `get(timeout=1.0)`
call (an empty queue raises `queue.Empty` and sends the worker back to the
guard), and `workerFinish` covers everything from a successful `get` to the
`task_done()` call that every path of the loop body performs (the sentinel
branch at line 564, the normal path and the `except`-handler path both
falling through to line 650). `raises` records whether processing the
message raised an exception (which line 645 catches); it provably has no
effect on the bookkeeping. -/

/-- Where the worker thread is inside its loop when it holds no item:
about to evaluate the `while` condition, or inside `get`. -/
inductive WorkerPC
  | atGuard
  | atCall
deriving DecidableEq

/-- A queued item: the `None` shutdown sentinel, or a real notification
request. -/
inductive QItem
  | sentinel
  | msg (target text : List Char)
deriving DecidableEq

/-- Joint state of the queue, the `stop_event` flag and the worker thread,
with ghost counters for enqueues, dequeues and `task_done` calls. -/
structure WorkerQueueState where
  items : List QItem
  unfinished : Nat
  stopped : Bool
  workerRunning : Bool
  pc : WorkerPC
  hand : Option QItem
  enqueued : Nat
  dequeued : Nat
  dones : Nat

/-- The interleaved events of producers, `onStop` and the worker thread. -/
inductive SysEvent
  | put (target text : List Char)
  | shutdown
  | workerGuard
  | workerGet
  | workerFinish (raises : Bool)

/-- One event's effect on the joint state. `put` is `messageQueue.put` from
a producer; `shutdown` is `onStop` lines 909-913 (`stop_event.set()` then
`put(None)`); `workerGuard` re-evaluates the loop condition (a set stop flag
makes the loop exit); `workerGet` completes a pending `get` (an empty queue
raises `queue.Empty`, sending the worker back to the guard); `workerFinish`
completes the body for the item in hand, calling `task_done` exactly once on
every path and leaving the loop after the sentinel. -/
def queueStep (s : WorkerQueueState) : SysEvent → WorkerQueueState
  | .put target text =>
    { s with items := s.items ++ [.msg target text],
             unfinished := s.unfinished + 1, enqueued := s.enqueued + 1 }
  | .shutdown =>
    { s with stopped := true, items := s.items ++ [.sentinel],
             unfinished := s.unfinished + 1, enqueued := s.enqueued + 1 }
  | .workerGuard =>
    if s.workerRunning ∧ s.hand = none ∧ s.pc = .atGuard then
      if s.stopped then { s with workerRunning := false }
      else { s with pc := .atCall }
    else s
  | .workerGet =>
    if s.workerRunning ∧ s.hand = none ∧ s.pc = .atCall then
      match s.items with
      | [] => { s with pc := .atGuard }
      | item :: rest =>
        { s with items := rest, hand := some item, pc := .atGuard,
                 dequeued := s.dequeued + 1 }
    else s
  | .workerFinish _ =>
    match s.hand with
    | none => s
    | some item =>
      { s with hand := none, unfinished := s.unfinished - 1, dones := s.dones + 1,
               workerRunning := if item = .sentinel then false else s.workerRunning }

/-- The state at plugin start: empty queue, worker thread running. -/
def queueInit : WorkerQueueState :=
  { items := [], unfinished := 0, stopped := false, workerRunning := true,
    pc := .atGuard, hand := none, enqueued := 0, dequeued := 0, dones := 0 }

/-- Run a sequence of events from a state. -/
def queueRun (s : WorkerQueueState) : List SysEvent → WorkerQueueState
  | [] => s
  | e :: es => queueRun (queueStep s e) es

/-- `messageQueue.join()` (as called by `onStop` line 933) returns in a
given state. -/
def joinReturns (s : WorkerQueueState) : Prop :=
  s.unfinished = 0

/-! ### State snapshot and restore (`GoogleDevice.StoreState` lines 481-492,
`GoogleDevice.RestoreState` lines 494-521)

Calls the code makes on the remote device are recorded as a trace of
`DeviceAction`s (the device calls are assumed not to raise; the `try` blocks
around them only log). `ready : ℕ → Bool` samples `self.Ready` at the k-th
read the wait loop performs, and `stop : ℕ → Bool` samples the stop event
after the k-th one-second wait. -/

/-- The fields `StoreState` copies into `self.State`. Python stores the
volume level and mute flag only when `self.GoogleDevice.status` is not
`None`, and the seek capability only when the media status is present;
`RestoreState` tests presence with `self.State.get('Volume') is not None`
and `'Volume' in self.State` (`'Muted'` likewise), which agree here because
the cast library reports float/bool values, never `None`. -/
structure DeviceSnapshot where
  volume : Option ℚ
  muted : Option Bool
  app : Option (List Char)
  supportsSeek : Option Bool

/-- A state-mutating call on the remote device. -/
inductive DeviceAction
  | quitApp
  | setVolume (v : ℚ)
  | setVolumeMuted (m : Bool)
deriving DecidableEq

/-- The `status` fields read by `StoreState`. -/
structure CastDeviceStatus where
  volume_level : ℚ
  volume_muted : Bool

/-- `StoreState`: snapshot the device status, then force-stop the running
app, set the configured notification volume and unmute. Returns the
snapshot and the trace of device calls. -/
def StoreState (castStatus : Option CastDeviceStatus) (appId : List Char)
    (supportsSeek : Option Bool) (notificationVolume : ℚ) :
    DeviceSnapshot × List DeviceAction :=
  let snap : DeviceSnapshot :=
    { volume := castStatus.map (fun st => st.volume_level),
      muted := castStatus.map (fun st => st.volume_muted),
      app := castStatus.map (fun _ => appId),
      supportsSeek := supportsSeek }
  (snap, [.quitApp, .setVolume notificationVolume, .setVolumeMuted false])

/-- The reconnect wait of `RestoreState` lines 496-505: re-check `self.Ready`
up to ten times at one-second intervals, returning the final value of
`waited` when the `while` loop exits, or `none` when the stop event aborted
the wait mid-loop (the early `return`). `n` is the remaining attempt budget
`10 - waited`. -/
def reconnectWait (ready stop : ℕ → Bool) (waited n : Nat) : Option Nat :=
  match n with
  | 0 => some waited
  | n + 1 =>
    if ready waited then some waited
    else if stop waited then none
    else reconnectWait ready stop (waited + 1) n

/-- `RestoreState`: nothing to do when no volume was captured; wait for the
device to reconnect, abort restoring entirely on timeout; otherwise stop any
running app and reapply the stored volume and mute flag. -/
def RestoreState (snap : DeviceSnapshot) (ready stop : ℕ → Bool) :
    List DeviceAction :=
  match snap.volume with
  | none => []
  | some _ =>
    match reconnectWait ready stop 0 10 with
    | none => []
    | some w =>
      if ready w = false then []
      else
        .quitApp ::
          ((match snap.volume with
            | some v => [DeviceAction.setVolume v]
            | none => []) ++
           (match snap.muted with
            | some m => [DeviceAction.setVolumeMuted m]
            | none => []))

/-! ### Worker dispatch of one dequeued request (`handleMessage` lines
570-643)

The observable effects of processing one `{Target, Text}` message are
recorded as a trace. The loop walks `self.googleDevices` in order; only
devices whose cast name equals the target are acted on. A muted target or a
failed synthesis breaks out of the device loop; a completed or timed-out
session and a not-connected device fall through to the next device. -/

/-- What the worker knows about one discovered device when a message is
processed. `muted` is `None` when `GoogleDevice.status` is `None`. -/
structure GDevice where
  uuid : List Char
  name : List Char
  ready : Bool
  muted : Option Bool

/-- Environmental outcomes of one playback session: whether `gTTS.save`
produced a file, and whether the poll loop reported completion. -/
structure SessionEnv where
  ttsFileCreated : Bool
  playbackCompleted : Bool

/-- The observable effects of `handleMessage`'s device loop. -/
inductive NotifyEffect
  | logMutedSkip
  | errorTranslationFailed
  | errorNotConnected
  | errorTimedOut
  | synthesize (uuid : List Char)
  | storeState (uuid : List Char)
  | playMedia (uuid : List Char)
  | restoreState (uuid : List Char)
  | removeFile (uuid : List Char)
deriving DecidableEq

/-- The device loop of lines 572-643, producing the trace of effects for one
message whose `Target` field is `target`. -/
def processMessage (env : SessionEnv) (devices : List GDevice)
    (target : List Char) : List NotifyEffect :=
  match devices with
  | [] => []
  | d :: rest =>
    if d.name = target then
      if d.muted = some true then [.logMutedSkip]
      else if d.ready then
        if env.ttsFileCreated = false then
          [.synthesize d.uuid, .errorTranslationFailed]
        else
          [NotifyEffect.synthesize d.uuid, .storeState d.uuid, .playMedia d.uuid,
            .restoreState d.uuid] ++
          (if env.playbackCompleted then [NotifyEffect.removeFile d.uuid]
           else [NotifyEffect.errorTimedOut]) ++
          processMessage env rest target
      else
        NotifyEffect.errorNotConnected :: processMessage env rest target
    else processMessage env rest target

/-! ### `UpdateDevice` (lines 1074-1078)

The Domoticz `Devices` table is a map from unit number to the stored record.
The comparison the source makes is on the `str()` forms of the current and
proposed values. -/

/-- The fields of a Domoticz device record that `UpdateDevice` touches. -/
structure DomDevice where
  nValue : Int
  sValue : List Char
  timedOut : Int
deriving DecidableEq

/-- Python `str()` of an int. -/
def intStr (n : Int) : List Char :=
  (toString n).data

/-- `UpdateDevice(Unit, nValue, sValue, TimedOut)`: when the unit exists and
any of the three `str()` forms differs from the stored record, write the
record once via `Devices[Unit].Update`; otherwise leave the table untouched.
Returns the new table and the number of `Update` calls made. -/
def UpdateDevice (devices : Nat → Option DomDevice) (unit : Nat)
    (nValue : Int) (sValue : List Char) (timedOut : Int) :
    (Nat → Option DomDevice) × Nat :=
  match devices unit with
  | none => (devices, 0)
  | some cur =>
    if intStr cur.nValue ≠ intStr nValue ∨ cur.sValue ≠ sValue ∨
        intStr cur.timedOut ≠ intStr timedOut then
      (fun u => if u = unit then
          some { nValue := nValue, sValue := sValue, timedOut := timedOut }
        else devices u, 1)
    else (devices, 0)

/-! ## Theorems -/

/-! ### Parsing lemmas for the `Range` header -/

theorem digitsVal_isDigit {cs : List Char} {acc n : Nat}
    (h : digitsVal cs acc = some n) : ∀ c ∈ cs, c.isDigit = true := by
  induction cs generalizing acc with
  | nil => intro c hc; cases hc
  | cons a as ih =>
    intro c hc
    simp only [digitsVal] at h
    by_cases ha : a.isDigit
    · rcases List.mem_cons.mp hc with rfl | hc
      · exact ha
      · exact ih (by simpa [ha] using h) c hc
    · simp [ha] at h

theorem digitsToNat?_isDigit {cs : List Char} {n : Nat}
    (h : digitsToNat? cs = some n) : ∀ c ∈ cs, c.isDigit = true := by
  rw [digitsToNat?] at h
  by_cases hc : cs = []
  · simp [hc] at h
  · exact digitsVal_isDigit (by simpa [hc] using h)

theorem digitsToNat?_ne_nil {cs : List Char} {n : Nat}
    (h : digitsToNat? cs = some n) : cs ≠ [] := by
  intro hc; rw [digitsToNat?] at h; simp [hc] at h

theorem isDigit_ne_dash {c : Char} (h : c.isDigit = true) : c ≠ '-' := by
  intro hc; subst hc; simp at h

/-- The first `=` in `bytes=` followed by anything is at index 5. -/
theorem pyFind_bytes_eq (rest : List Char) :
    pyFind ("bytes=".data ++ rest) '=' = 5 := by
  show pyFind ('b' :: 'y' :: 't' :: 'e' :: 's' :: '=' :: rest) '=' = 5
  simp [pyFind]

/-- Extracting the range spec after `=` recovers the suffix. -/
theorem rangeSpec_bytes (rest : List Char) :
    ("bytes=".data ++ rest).drop (pyFind ("bytes=".data ++ rest) '=' + 1).toNat =
      rest := by
  rw [pyFind_bytes_eq]
  show List.drop 6 ('b' :: 'y' :: 't' :: 'e' :: 's' :: '=' :: rest) = rest
  simp

theorem pySplitOnce_no_dash {s1 : List Char} (s2 : List Char)
    (h : ∀ c ∈ s1, c ≠ '-') :
    pySplitOnce (s1 ++ '-' :: s2) '-' = (s1, some s2) := by
  induction s1 with
  | nil => simp [pySplitOnce]
  | cons a as ih =>
    have ha : a ≠ '-' := h a (by simp)
    have ih' := ih (fun c hc => h c (by simp [hc]))
    simp only [List.cons_append, pySplitOnce, if_neg ha, List.append_eq]
    rw [ih']

/-- C2 (amended), part: explicit `bytes=A-B` parses to start `A` (unclamped)
and end `min(B, size-1)`. -/
theorem parseRangeHeader_explicit {s1 s2 : List Char} {A B : Nat} (size : Nat)
    (hA : digitsToNat? s1 = some A) (hB : digitsToNat? s2 = some B) :
    parseRangeHeader ("bytes=".data ++ s1 ++ '-' :: s2) size =
      some (A, min (B : Int) ((size : Int) - 1)) := by
  have hsplit : pySplitOnce (s1 ++ '-' :: s2) '-' = (s1, some s2) :=
    pySplitOnce_no_dash s2 (fun c hc => isDigit_ne_dash (digitsToNat?_isDigit hA c hc))
  rw [parseRangeHeader]
  rw [show ("bytes=".data ++ s1 ++ '-' :: s2) = "bytes=".data ++ (s1 ++ '-' :: s2)
    by simp]
  rw [rangeSpec_bytes, hsplit]
  simp [digitsToNat?_ne_nil hA, digitsToNat?_ne_nil hB, hA, hB]

/-- C2 (amended), part: open-ended `bytes=A-` parses to start `A` and end
`min(A + KB_TO_XMIT - 1, size-1)`. -/
theorem parseRangeHeader_open {s1 : List Char} {A : Nat} (size : Nat)
    (hA : digitsToNat? s1 = some A) :
    parseRangeHeader ("bytes=".data ++ s1 ++ ['-']) size =
      some (A, min ((A : Int) + (KB_TO_XMIT : Int) - 1) ((size : Int) - 1)) := by
  have hsplit : pySplitOnce (s1 ++ '-' :: []) '-' = (s1, some []) :=
    pySplitOnce_no_dash [] (fun c hc => isDigit_ne_dash (digitsToNat?_isDigit hA c hc))
  rw [parseRangeHeader]
  rw [show ("bytes=".data ++ s1 ++ ['-']) = "bytes=".data ++ (s1 ++ '-' :: [])
    by simp]
  rw [rangeSpec_bytes, hsplit]
  simp [digitsToNat?_ne_nil hA, hA]

/-- C2 (amended), part: a missing start (`bytes=-B`) defaults to start 0. -/
theorem parseRangeHeader_noStart {s2 : List Char} {B : Nat} (size : Nat)
    (hB : digitsToNat? s2 = some B) :
    parseRangeHeader ("bytes=".data ++ '-' :: s2) size =
      some (0, min (B : Int) ((size : Int) - 1)) := by
  have hsplit : pySplitOnce (([] : List Char) ++ '-' :: s2) '-' = ([], some s2) :=
    pySplitOnce_no_dash s2 (fun c hc => absurd hc (List.not_mem_nil c))
  rw [parseRangeHeader, rangeSpec_bytes]
  simp only [List.nil_append] at hsplit
  rw [hsplit]
  simp [digitsToNat?_ne_nil hB, hB]

/-! ### C2: range parsing defaults and clamping -/

/-- C2 counterexample: on a 10-byte file, `Range: bytes=100-` parses to
start position 100, which is not clamped to `fileSize - 1 = 9` (the claim
says both start and end are clamped). -/
theorem parseRange_start_unclamped_cex :
    parseRangeHeader "bytes=100-".data 10 = some (100, 9) ∧
    ¬ ((100 : Nat) ≤ 10 - 1) := by
  constructor
  · decide
  · decide

/-- C2 (amended): for a `Range` header on a file of size `fileSize`, the
parsed start defaults to 0 when absent and is used unclamped; the end
defaults to `start + KB_TO_XMIT - 1` when absent and is clamped to
`fileSize - 1`; an explicit end is clamped to `fileSize - 1`; and the
transfer quantum `KB_TO_XMIT` is 16384 bytes. -/
theorem parseRangeHeader_spec (s1 s2 : List Char) (A B size : Nat) :
    KB_TO_XMIT = 16384 ∧
    (digitsToNat? s1 = some A →
      parseRangeHeader ("bytes=".data ++ s1 ++ ['-']) size =
        some (A, min ((A : Int) + 16384 - 1) ((size : Int) - 1))) ∧
    (digitsToNat? s1 = some A → digitsToNat? s2 = some B →
      parseRangeHeader ("bytes=".data ++ s1 ++ '-' :: s2) size =
        some (A, min (B : Int) ((size : Int) - 1))) ∧
    (digitsToNat? s2 = some B →
      parseRangeHeader ("bytes=".data ++ '-' :: s2) size =
        some (0, min (B : Int) ((size : Int) - 1))) := by
  refine ⟨rfl, fun hA => ?_, fun hA hB => parseRangeHeader_explicit size hA hB,
    fun hB => parseRangeHeader_noStart size hB⟩
  have h := parseRangeHeader_open size hA
  rwa [show (KB_TO_XMIT : Int) = 16384 by rfl] at h

/-- Witness for C2 (amended) at the header `bytes=100-` on a 10-byte file:
the open-ended end is clamped to 9 while the start stays 100. -/
theorem parseRangeHeader_spec_witness :
    parseRangeHeader ("bytes=".data ++ ['1', '0', '0'] ++ ['-']) 10 =
      some (100, min ((100 : Int) + 16384 - 1) ((10 : Int) - 1)) :=
  (parseRangeHeader_spec ['1', '0', '0'] [] 100 0 10).2.1 (by decide)

/-! ### C3: parent-path escape -/

/-- C3: the request URL `/../secret.mp3` resolves to
`<messagesDir>/../secret.mp3`, whose normalized form lies outside the
Messages directory, and the server nevertheless serves that file with
`200 OK` when it exists on disk: URLs with parent-path segments escape the
asset directory. -/
theorem mediaServer_parent_path_escape :
    resolveFilePath "/home/d/Messages".data "/../secret.mp3".data =
      "/home/d/Messages/../secret.mp3".data ∧
    ¬ insideDir "/home/d/Messages".data "/home/d/Messages/../secret.mp3".data ∧
    onMessageServer "/home/d/Messages".data
        (fun p => if p = "/home/d/Messages/../secret.mp3".data
          then some [1, 2, 3] else none)
        { verb := some "GET".data, url := some "/../secret.mp3".data,
          headers := some [] } =
      some { status := "200 OK".data,
             headers := noCacheHeaders ++ [("Content-Length".data, "3".data)],
             body := [1, 2, 3] } := by
  refine ⟨by decide, by decide, by decide⟩

/-! ### C9: unknown notification target -/

/-- C9 counterexample: a message whose target matches no discovered device
produces an empty effect trace — in particular no error report of any kind
(the claim says a "target not found" error is reported). -/
theorem processMessage_unknown_target_cex :
    processMessage { ttsFileCreated := true, playbackCompleted := true }
      [{ uuid := "u1".data, name := "Kitchen speaker".data, ready := true,
         muted := none }]
      "Bedroom speaker".data = [] := by
  decide

/-- C9 (amended): a dequeued request whose target name matches no device is
dropped silently: the device loop emits no error report, no synthesis, no
playback and no state mutation (the request is still marked processed by the
`task_done` call the worker loop makes for every dequeued item). -/
theorem processMessage_unknown_target (env : SessionEnv)
    (devices : List GDevice) (target : List Char)
    (h : ∀ d ∈ devices, d.name ≠ target) :
    processMessage env devices target = [] := by
  induction devices with
  | nil => rfl
  | cons d rest ih =>
    rw [processMessage]
    rw [if_neg (h d (by simp))]
    exact ih (fun d' hd' => h d' (by simp [hd']))

/-- Witness for C9 (amended): two devices, neither named like the target. -/
theorem processMessage_unknown_target_witness :
    processMessage { ttsFileCreated := true, playbackCompleted := false }
      [{ uuid := "u1".data, name := "Kitchen".data, ready := true, muted := none },
       { uuid := "u2".data, name := "Office".data, ready := false,
         muted := some true }]
      "Garage".data = [] :=
  processMessage_unknown_target _ _ _ (by decide)

/-! ### C10: `UpdateDevice` conditional write -/

/-- C10: `UpdateDevice` is a conditional write: for a unit present in
`Devices` it leaves the table untouched when the proposed `nValue`, `sValue`
and `TimedOut` all equal the stored record under `str()`, writes the record
exactly once when any of the three differs, and does nothing for a unit not
in `Devices`. -/
theorem UpdateDevice_conditional_write (devices : Nat → Option DomDevice)
    (unit : Nat) (nValue : Int) (sValue : List Char) (timedOut : Int) :
    (∀ cur, devices unit = some cur →
      ((intStr cur.nValue = intStr nValue ∧ cur.sValue = sValue ∧
          intStr cur.timedOut = intStr timedOut) →
        UpdateDevice devices unit nValue sValue timedOut = (devices, 0)) ∧
      (¬ (intStr cur.nValue = intStr nValue ∧ cur.sValue = sValue ∧
          intStr cur.timedOut = intStr timedOut) →
        (UpdateDevice devices unit nValue sValue timedOut).2 = 1 ∧
        (UpdateDevice devices unit nValue sValue timedOut).1 unit =
          some { nValue := nValue, sValue := sValue, timedOut := timedOut } ∧
        ∀ u, u ≠ unit →
          (UpdateDevice devices unit nValue sValue timedOut).1 u = devices u)) ∧
    (devices unit = none →
      UpdateDevice devices unit nValue sValue timedOut = (devices, 0)) := by
  constructor
  · intro cur hcur
    constructor
    · intro h
      simp [UpdateDevice, hcur, h.1, h.2.1, h.2.2]
    · intro h
      have hne : intStr cur.nValue ≠ intStr nValue ∨ cur.sValue ≠ sValue ∨
          intStr cur.timedOut ≠ intStr timedOut := by tauto
      simp only [UpdateDevice, hcur, if_pos hne]
      refine ⟨by simp, by simp, fun u hu => by simp [hu]⟩
  · intro h
    simp [UpdateDevice, h]

/-- Witness for C10: a one-unit table where the proposed values differ. -/
theorem UpdateDevice_conditional_write_witness :
    (UpdateDevice
        (fun u => if u = 3 then
          some { nValue := 1, sValue := "old".data, timedOut := 0 } else none)
        3 2 "new".data 0).2 = 1 :=
  ((UpdateDevice_conditional_write _ 3 2 "new".data 0).1
      { nValue := 1, sValue := "old".data, timedOut := 0 } (by simp)).2
    (by decide) |>.1

/-! ### C8: restore is atomic -/

theorem reconnectWait_never_ready {ready stop : ℕ → Bool} (w n : Nat)
    (hready : ∀ k, k < w + n → ready k = false)
    (hstop : ∀ k, stop k = false) :
    reconnectWait ready stop w n = some (w + n) := by
  induction n generalizing w with
  | zero => rfl
  | succ n ih =>
    rw [reconnectWait]
    rw [hready w (by omega), hstop w]
    simp only [Bool.false_eq_true, if_false]
    rw [ih (w + 1) (fun k hk => hready k (by omega))]
    norm_num
    omega

/-- C8: if the device does not report ready within the ten bounded wait
attempts, `RestoreState` performs no device call at all; on a successful
wait it stops any running app and then reapplies exactly the snapshotted
volume and mute flag, in that order; and with no snapshotted volume it is a
no-op. -/
theorem restoreState_atomic (snap : DeviceSnapshot) (ready stop : ℕ → Bool) :
    (snap.volume = none → RestoreState snap ready stop = []) ∧
    ((∀ k, k ≤ 10 → ready k = false) → (∀ k, stop k = false) →
      RestoreState snap ready stop = []) ∧
    (∀ v m w, snap.volume = some v → snap.muted = some m →
      reconnectWait ready stop 0 10 = some w → ready w = true →
      RestoreState snap ready stop =
        [DeviceAction.quitApp, DeviceAction.setVolume v,
          DeviceAction.setVolumeMuted m]) := by
  refine ⟨fun h => ?_, fun hready hstop => ?_, fun v m w hv hm hw hr => ?_⟩
  · rw [RestoreState, h]
  · rcases hvol : snap.volume with _ | v
    · rw [RestoreState, hvol]
    · have hrw : reconnectWait ready stop 0 10 = some 10 := by
        have h10 := reconnectWait_never_ready 0 10
          (fun k hk => hready k (by omega)) hstop
        simpa using h10
      simp [RestoreState, hvol, hrw, hready 10 (by omega)]
  · simp [RestoreState, hv, hm, hw, hr]

/-- Witness for C8: an always-ready device with a snapshot of volume 1/2,
muted; restore stops the app then reapplies both. -/
theorem restoreState_atomic_witness :
    RestoreState
        { volume := some (1 / 2), muted := some true, app := none,
          supportsSeek := none }
        (fun _ => true) (fun _ => false) =
      [DeviceAction.quitApp, DeviceAction.setVolume (1 / 2),
        DeviceAction.setVolumeMuted true] :=
  (restoreState_atomic _ _ _).2.2 (1 / 2) true 0 rfl rfl rfl rfl

/-! ### C4: `Content-Type` header coverage -/

/-- C4 counterexample: a `POST` request is answered `405 Method Not Allowed`
with a bare status line — no headers at all, in particular no
`Content-Type: audio/mpeg`. -/
theorem mediaServer_contentType_cex :
    (onMessageServer "/m".data (fun _ => none)
        { verb := some "POST".data, url := some "/a.mp3".data,
          headers := some [] }).map
        (fun r => (r.status,
          decide (("Content-Type".data, "audio/mpeg".data) ∈ r.headers))) =
      some ("405 Method Not Allowed".data, false) := by
  decide

/-- C4 (amended): a response of the media server carries
`Content-Type: audio/mpeg` precisely when it is a `200 OK` or
`206 Partial Content` success response; the `400`, `404` and `405` error
responses are sent with a bare status line and no headers. -/
theorem mediaServer_contentType (messagesDir : List Char)
    (fs : List Char → Option (List Nat)) (data : HttpData) (r : HttpResponse)
    (h : onMessageServer messagesDir fs data = some r) :
    (("Content-Type".data, "audio/mpeg".data) ∈ r.headers ↔
      (r.status = "200 OK".data ∨ r.status = "206 Partial Content".data)) := by
  rcases data with ⟨verb, url, hdrs⟩
  rcases verb with _ | v
  · simp only [onMessageServer] at h
    cases h
    decide
  · by_cases hv : v = "GET".data
    · subst hv
      simp only [onMessageServer, ne_eq, not_true_eq_false, if_false] at h
      rcases url with _ | url
      · cases h; decide
      · rcases hdrs with _ | hdrs
        · cases h; decide
        · dsimp only at h
          rcases hfs : fs (resolveFilePath messagesDir url) with _ | content
          · rw [hfs] at h; cases h; decide
          · rw [hfs] at h
            simp only [serveFile] at h
            rcases hl : lookupHeader hdrs "Range".data with _ | rh
            · rw [hl] at h
              cases h
              simp [noCacheHeaders]
            · rw [hl] at h
              dsimp only at h
              rcases hp : parseRangeHeader rh content.length with _ | ⟨a, b⟩
              · rw [hp] at h; cases h
              · rw [hp] at h
                dsimp only at h
                cases h
                simp [noCacheHeaders]
    · simp only [onMessageServer, ne_eq, if_pos hv] at h
      cases h
      decide

/-- Witness for C4 (amended): a missing-file request gets `404` and,
consistently with the iff, no `Content-Type` header. -/
theorem mediaServer_contentType_witness :
    ¬ (("Content-Type".data, "audio/mpeg".data) ∈
        HttpResponse.headers
          { status := "404 File Not Found".data, headers := [], body := [] }) := by
  have h := mediaServer_contentType "/m".data (fun _ => none)
    { verb := some "GET".data, url := some "/a.mp3".data, headers := some [] }
    { status := "404 File Not Found".data, headers := [], body := [] }
    (by decide)
  intro hmem
  rcases h.mp hmem with h2 | h2 <;> revert h2 <;> decide

/-! ### C1: byte-range requests are served exactly -/

theorem fileRead_of_le {content : List Nat} {A B : Nat} (hAB : A ≤ B) :
    fileRead content A ((B : Int) - (A : Int) + 1) =
      (content.drop A).take (B - A + 1) := by
  rw [fileRead, if_neg (by omega)]
  congr 1
  omega

/-- C1: a `GET` for an existing asset with `Range: bytes=A-B`, `A ≤ B <
fileSize`, is answered `206 Partial Content`; the body is exactly the
`B-A+1` bytes of the file at offsets `A..B`, the `Content-Range` header is
`bytes A-B/fileSize` and `Content-Length` equals `B-A+1`. -/
theorem mediaServer_range_exact (messagesDir url s1 s2 : List Char)
    (hdrs : List (List Char × List Char)) (content : List Nat)
    (fs : List Char → Option (List Nat)) (A B : Nat)
    (hA : digitsToNat? s1 = some A) (hB : digitsToNat? s2 = some B)
    (hAB : A ≤ B) (hBsize : B < content.length)
    (hrange : lookupHeader hdrs "Range".data =
      some ("bytes=".data ++ s1 ++ '-' :: s2))
    (hfs : fs (resolveFilePath messagesDir url) = some content) :
    onMessageServer messagesDir fs
        { verb := some "GET".data, url := some url, headers := some hdrs } =
      some { status := "206 Partial Content".data,
             headers := noCacheHeaders ++
               [("Content-Range".data,
                 contentRangeValue A (B : Int) content.length),
                ("Content-Length".data, (toString (B - A + 1)).data)],
             body := (content.drop A).take (B - A + 1) } ∧
    ((content.drop A).take (B - A + 1)).length = B - A + 1 ∧
    (∀ i, i < B - A + 1 →
      ((content.drop A).take (B - A + 1))[i]? = content[A + i]?) := by
  have hmin : min (B : Int) ((content.length : Int) - 1) = (B : Int) := by omega
  have hparse : parseRangeHeader ("bytes=".data ++ s1 ++ '-' :: s2)
      content.length = some (A, (B : Int)) := by
    rw [parseRangeHeader_explicit content.length hA hB, hmin]
  have hlen : ((content.drop A).take (B - A + 1)).length = B - A + 1 := by
    rw [List.length_take, List.length_drop]
    omega
  refine ⟨?_, hlen, fun i hi => ?_⟩
  · simp only [onMessageServer, ne_eq, not_true_eq_false, if_false, hfs,
      serveFile, hrange, hparse]
    rw [fileRead_of_le hAB, hlen]
  · rw [List.getElem?_take_of_lt hi, List.getElem?_drop]

/-- Witness for C1: a six-byte file requested with `bytes=1-3`. -/
theorem mediaServer_range_exact_witness :
    onMessageServer "/m".data
        (fun p => if p = "/m/a.mp3".data then some [10, 11, 12, 13, 14, 15]
          else none)
        { verb := some "GET".data, url := some "/a.mp3?t=1".data,
          headers := some [("Range".data, "bytes=1-3".data)] } =
      some { status := "206 Partial Content".data,
             headers := noCacheHeaders ++
               [("Content-Range".data,
                 contentRangeValue 1 (3 : Int) 6),
                ("Content-Length".data, (toString (3 - 1 + 1)).data)],
             body := (([10, 11, 12, 13, 14, 15] : List Nat).drop 1).take
               (3 - 1 + 1) } :=
  (mediaServer_range_exact "/m".data "/a.mp3?t=1".data ['1'] ['3']
    [("Range".data, "bytes=1-3".data)] [10, 11, 12, 13, 14, 15]
    (fun p => if p = "/m/a.mp3".data then some [10, 11, 12, 13, 14, 15]
      else none)
    1 3 (by decide) (by decide) (by decide) (by decide) (by decide)
    (by decide)).1

/-! ### C5: queue drain safety -/

theorem queueStep_invariant (s : WorkerQueueState) (e : SysEvent)
    (h1 : s.unfinished = s.items.length + (if s.hand.isSome then 1 else 0))
    (h2 : s.dequeued = s.dones + (if s.hand.isSome then 1 else 0))
    (h3 : s.enqueued = s.dones + s.unfinished) :
    (queueStep s e).unfinished = (queueStep s e).items.length +
        (if (queueStep s e).hand.isSome then 1 else 0) ∧
      (queueStep s e).dequeued = (queueStep s e).dones +
        (if (queueStep s e).hand.isSome then 1 else 0) ∧
      (queueStep s e).enqueued = (queueStep s e).dones +
        (queueStep s e).unfinished := by
  obtain ⟨items, unfinished, stopped, workerRunning, pc, hand, enqueued,
    dequeued, dones⟩ := s
  rcases e with ⟨target, text⟩ | _ | _ | _ | r
  · simp only [queueStep, List.length_append, List.length_cons,
      List.length_nil] at h1 h2 h3 ⊢
    omega
  · simp only [queueStep, List.length_append, List.length_cons,
      List.length_nil] at h1 h2 h3 ⊢
    omega
  · simp only [queueStep]
    split
    · split <;> exact ⟨h1, h2, h3⟩
    · exact ⟨h1, h2, h3⟩
  · simp only [queueStep]
    split
    · rcases items with _ | ⟨item, rest⟩
      · exact ⟨h1, h2, h3⟩
      · rename_i hcond
        obtain ⟨-, hhand, -⟩ := hcond
        subst hhand
        refine ⟨?_, ?_, ?_⟩ <;> simp_all
    · exact ⟨h1, h2, h3⟩
  · simp only [queueStep]
    rcases hand with _ | item
    · exact ⟨h1, h2, h3⟩
    · refine ⟨?_, ?_, ?_⟩ <;> simp_all
      omega

theorem queueRun_invariant (evs : List SysEvent) :
    ∀ s, (s.unfinished = s.items.length + (if s.hand.isSome then 1 else 0) ∧
      s.dequeued = s.dones + (if s.hand.isSome then 1 else 0) ∧
      s.enqueued = s.dones + s.unfinished) →
    ((queueRun s evs).unfinished = (queueRun s evs).items.length +
        (if (queueRun s evs).hand.isSome then 1 else 0) ∧
      (queueRun s evs).dequeued = (queueRun s evs).dones +
        (if (queueRun s evs).hand.isSome then 1 else 0) ∧
      (queueRun s evs).enqueued = (queueRun s evs).dones +
        (queueRun s evs).unfinished) := by
  induction evs with
  | nil => intro s h; exact h
  | cons e es ih =>
    intro s h
    exact ih (queueStep s e) (queueStep_invariant s e h.1 h.2.1 h.2.2)

/-- C5: in every interleaving of producers, `onStop` and the worker,
`messageQueue.join()` can return only when every enqueued item — the pending
requests and the shutdown sentinel alike — has received its `task_done`
call (`dones = enqueued`, nothing left queued or in the worker's hands);
every dequeued item has been marked processed exactly once (except the one
currently being processed, which has not been marked yet); and whether
processing raised an error makes no difference to this bookkeeping. -/
theorem queue_drain_safety (evs : List SysEvent) :
    ((queueRun queueInit evs).dequeued =
      (queueRun queueInit evs).dones +
        (if (queueRun queueInit evs).hand.isSome then 1 else 0)) ∧
    (joinReturns (queueRun queueInit evs) →
      (queueRun queueInit evs).dones = (queueRun queueInit evs).enqueued ∧
      (queueRun queueInit evs).items = [] ∧
      (queueRun queueInit evs).hand = none) ∧
    (∀ s, queueStep s (SysEvent.workerFinish true) =
      queueStep s (SysEvent.workerFinish false)) := by
  have hinv := queueRun_invariant evs queueInit (by simp [queueInit])
  refine ⟨hinv.2.1, fun hjoin => ?_, fun s => rfl⟩
  have h0 : (queueRun queueInit evs).unfinished = 0 := hjoin
  have hhand : (queueRun queueInit evs).hand = none := by
    rcases hh : (queueRun queueInit evs).hand with _ | item
    · rfl
    · exfalso
      rw [hh] at hinv
      simp only [Option.isSome_some, if_true] at hinv
      omega
  rw [hhand] at hinv
  simp only [Option.isSome_none, if_false] at hinv
  have hitems : (queueRun queueInit evs).items = [] :=
    List.length_eq_zero.mp (by omega)
  exact ⟨by omega, hitems, hhand⟩

/-- Witness for C5: one request is enqueued, processed, shutdown is issued,
and the worker (already past the guard) dequeues and marks the sentinel;
`join` then returns with both enqueued items marked done. -/
theorem queue_drain_safety_witness :
    (queueRun queueInit
        [SysEvent.put "Kitchen".data "hello".data, SysEvent.workerGuard,
          SysEvent.workerGet, SysEvent.workerFinish false,
          SysEvent.workerGuard, SysEvent.shutdown, SysEvent.workerGet,
          SysEvent.workerFinish true]).dones =
      (queueRun queueInit
        [SysEvent.put "Kitchen".data "hello".data, SysEvent.workerGuard,
          SysEvent.workerGet, SysEvent.workerFinish false,
          SysEvent.workerGuard, SysEvent.shutdown, SysEvent.workerGet,
          SysEvent.workerFinish true]).enqueued :=
  ((queue_drain_safety
      [SysEvent.put "Kitchen".data "hello".data, SysEvent.workerGuard,
        SysEvent.workerGet, SysEvent.workerFinish false,
        SysEvent.workerGuard, SysEvent.shutdown, SysEvent.workerGet,
        SysEvent.workerFinish true]).2.1
    (show (queueRun queueInit
        [SysEvent.put "Kitchen".data "hello".data, SysEvent.workerGuard,
          SysEvent.workerGet, SysEvent.workerFinish false,
          SysEvent.workerGuard, SysEvent.shutdown, SysEvent.workerGet,
          SysEvent.workerFinish true]).unfinished = 0 by decide)).1

/-! ### C6: the poll loop times out when playback never starts -/

theorem pollStepState_sawPlaying_eq (status : ℕ → MediaStatus) (i : ℕ)
    (s : PollState) :
    (pollStepState status i s).sawPlaying =
      (s.sawPlaying || playActive (status i)) := rfl

/-- Unfolding of one loop iteration when the stop event is not set at either
of its two checks. -/
theorem pollLoop_succ (status : ℕ → MediaStatus) (stop : ℕ → Bool)
    (fuel i : ℕ) (s : PollState)
    (h1 : stop (2 * i) = false) (h2 : stop (2 * i + 1) = false) :
    pollLoop status stop (fuel + 1) i s =
      if s.t < s.endTime then
        (if (pollStepState status i s).sawPlaying && (status i).player_is_idle
          then some { playbackCompleted := true, ticks := i + 1,
                      final := pollStepState status i s }
          else pollLoop status stop fuel (i + 1) (pollStepState status i s))
      else some { playbackCompleted := false, ticks := i, final := s } := by
  rw [pollLoop]
  by_cases hg : s.t < s.endTime
  · rw [if_pos ⟨hg, h1⟩, if_pos hg, h2]
    simp
  · rw [if_neg (fun hc => hg hc.1), if_neg hg]

theorem pollLoop_no_activity (status : ℕ → MediaStatus) (stop : ℕ → Bool)
    (hplay : ∀ i, playActive (status i) = false)
    (hstop : ∀ j, stop j = false) :
    ∀ (fuel i : ℕ) (t E : ℚ) (dSet : Bool) (res : Nat),
      max 0 ⌈2 * (E - t)⌉ < (fuel : ℤ) →
      ∃ r, pollLoop status stop fuel i
          { t := t, endTime := E, sawPlaying := false, durationSet := dSet,
            resets := res } = some r ∧
        r.playbackCompleted = false ∧
        (r.ticks : ℤ) ≤ i + max 0 ⌈2 * (E - t)⌉ ∧
        r.final.t ≤ max t (E + 1 / 2) := by
  intro fuel
  induction fuel with
  | zero =>
    intro i t E dSet res hfuel
    have h0 := le_max_left (0 : ℤ) ⌈2 * (E - t)⌉
    push_cast at hfuel
    omega
  | succ fuel ih =>
    intro i t E dSet res hfuel
    rw [pollLoop_succ status stop fuel i _ (hstop _) (hstop _)]
    dsimp only
    by_cases ht : t < E
    · rw [if_pos ht]
      have hp : ((status i).player_is_playing || (status i).player_is_paused)
          = false := hplay i
      have hstep : pollStepState status i
          { t := t, endTime := E, sawPlaying := false, durationSet := dSet,
            resets := res } =
          { t := t + 1 / 2, endTime := E, sawPlaying := false,
            durationSet := dSet, resets := res } := by
        simp [pollStepState, hp]
      rw [hstep]
      simp only [Bool.false_and, Bool.false_eq_true, if_false]
      have hgt : (0 : ℤ) < ⌈2 * (E - t)⌉ := Int.ceil_pos.mpr (by linarith)
      have hceil : ⌈2 * (E - (t + 1 / 2))⌉ = ⌈2 * (E - t)⌉ - 1 := by
        rw [show 2 * (E - (t + 1 / 2)) = 2 * (E - t) - 1 by ring,
          Int.ceil_sub_one]
      rw [max_eq_right (le_of_lt hgt)] at hfuel
      push_cast at hfuel
      have hfuel' : max 0 ⌈2 * (E - (t + 1 / 2))⌉ < (fuel : ℤ) := by
        rw [hceil]
        refine max_lt (by omega) (by omega)
      obtain ⟨r, hr, hcomp, hticks, hft⟩ :=
        ih (i + 1) (t + 1 / 2) E dSet res hfuel'
      refine ⟨r, hr, hcomp, ?_, ?_⟩
      · rw [hceil, max_eq_right (by omega : (0 : ℤ) ≤ ⌈2 * (E - t)⌉ - 1)]
          at hticks
        rw [max_eq_right (le_of_lt hgt)]
        push_cast at hticks
        omega
      · have hmx : max (t + 1 / 2) (E + 1 / 2) = E + 1 / 2 :=
          max_eq_right (by linarith)
        rw [hmx] at hft
        exact le_trans hft (le_max_right _ _)
    · rw [if_neg ht]
      refine ⟨_, rfl, rfl, ?_, le_max_left _ _⟩
      dsimp only
      have h0 := le_max_left (0 : ℤ) ⌈2 * (E - t)⌉
      omega

/-- C6: for a session in which the player status never reports playing or
paused, the poll loop terminates (with the stated fuel) reporting
`playbackCompleted = false`; no iteration runs past the initial deadline
`max(15, estimatedDuration + 10)`: the number of half-second ticks is at
most the deadline's tick count and the exit time is within one poll
interval of the deadline. -/
theorem pollLoop_idle_timeout (status : ℕ → MediaStatus) (stop : ℕ → Bool)
    (fileSize : Nat) (t0 : ℚ)
    (hplay : ∀ i, playActive (status i) = false)
    (hstop : ∀ j, stop j = false) :
    ∃ r, pollLoop status stop
        (2 * ⌈initialDeadline (estimatedDuration fileSize)⌉₊ + 1) 0
        (pollInit t0 (estimatedDuration fileSize)) = some r ∧
      r.playbackCompleted = false ∧
      (r.ticks : ℤ) ≤ ⌈2 * initialDeadline (estimatedDuration fileSize)⌉ ∧
      r.final.t ≤ t0 + initialDeadline (estimatedDuration fileSize) + 1 / 2 := by
  have hD15 : (15 : ℚ) ≤ initialDeadline (estimatedDuration fileSize) :=
    le_max_left _ _
  have hceil2D : (0 : ℤ) < ⌈2 * initialDeadline (estimatedDuration fileSize)⌉ :=
    Int.ceil_pos.mpr (by linarith)
  have hfuel : max 0 ⌈2 * ((t0 + initialDeadline (estimatedDuration fileSize))
      - t0)⌉ <
      ((2 * ⌈initialDeadline (estimatedDuration fileSize)⌉₊ + 1 : ℕ) : ℤ) := by
    rw [show (t0 + initialDeadline (estimatedDuration fileSize)) - t0 =
      initialDeadline (estimatedDuration fileSize) by ring]
    rw [max_eq_right (le_of_lt hceil2D)]
    have h1 : (2 : ℚ) * initialDeadline (estimatedDuration fileSize) ≤
        ((2 * ⌈initialDeadline (estimatedDuration fileSize)⌉₊ : ℕ) : ℚ) := by
      push_cast
      have h2 := Nat.le_ceil (initialDeadline (estimatedDuration fileSize))
      linarith
    have h3 : ⌈2 * initialDeadline (estimatedDuration fileSize)⌉ ≤
        ((2 * ⌈initialDeadline (estimatedDuration fileSize)⌉₊ : ℕ) : ℤ) :=
      Int.ceil_le.mpr (by exact_mod_cast h1)
    push_cast at h3 ⊢
    omega
  obtain ⟨r, hr, hcomp, hticks, hft⟩ :=
    pollLoop_no_activity status stop hplay hstop
      (2 * ⌈initialDeadline (estimatedDuration fileSize)⌉₊ + 1) 0 t0
      (t0 + initialDeadline (estimatedDuration fileSize)) false 0 hfuel
  refine ⟨r, hr, hcomp, ?_, ?_⟩
  · rw [show (t0 + initialDeadline (estimatedDuration fileSize)) - t0 =
      initialDeadline (estimatedDuration fileSize) by ring] at hticks
    rw [max_eq_right (le_of_lt hceil2D)] at hticks
    simpa using hticks
  · have hmx : max t0 ((t0 + initialDeadline (estimatedDuration fileSize))
        + 1 / 2) =
        (t0 + initialDeadline (estimatedDuration fileSize)) + 1 / 2 :=
      max_eq_right (by linarith)
    rw [hmx] at hft
    linarith

/-- Witness for C6: a zero-byte asset and an always-idle player; the loop
exits with `playbackCompleted = false`. -/
theorem pollLoop_idle_timeout_witness :
    (pollLoop (fun _ => idleMediaStatus) (fun _ => false)
        (2 * ⌈initialDeadline (estimatedDuration 0)⌉₊ + 1) 0
        (pollInit 0 (estimatedDuration 0))).map
      (fun r => r.playbackCompleted) = some false := by
  obtain ⟨r, hr, hcomp, -, -⟩ :=
    pollLoop_idle_timeout (fun _ => idleMediaStatus) (fun _ => false) 0 0
      (fun i => rfl) (fun j => rfl)
  rw [hr]
  simp [hcomp]

/-! ### C7: exact characterization of the completion flag and the one-time
deadline recomputation -/

theorem pollStepState_endTime_eq (status : ℕ → MediaStatus) (i : ℕ)
    (s : PollState) :
    (pollStepState status i s).endTime =
      if (s.sawPlaying || playActive (status i)) && !s.durationSet &&
          ((status i).duration).isSome
        then s.t + 1 / 2 + ((status i).duration).getD 0 + 5
        else s.endTime := rfl

theorem pollStepState_durationSet_eq (status : ℕ → MediaStatus) (i : ℕ)
    (s : PollState) :
    (pollStepState status i s).durationSet =
      if (s.sawPlaying || playActive (status i)) && !s.durationSet &&
          ((status i).duration).isSome
        then true else s.durationSet := rfl

theorem pollStepState_resets_eq (status : ℕ → MediaStatus) (i : ℕ)
    (s : PollState) :
    (pollStepState status i s).resets =
      if (s.sawPlaying || playActive (status i)) && !s.durationSet &&
          ((status i).duration).isSome
        then s.resets + 1 else s.resets := rfl

theorem pollStepState_t_eq (status : ℕ → MediaStatus) (i : ℕ) (s : PollState) :
    (pollStepState status i s).t = s.t + 1 / 2 := rfl

theorem sawFrom_succ (status : ℕ → MediaStatus) (saw0 : Bool) (i k : ℕ)
    (hik : i ≤ k) :
    sawFrom status (saw0 || playActive (status i)) (i + 1) k ↔
      sawFrom status saw0 i k := by
  unfold sawFrom
  constructor
  · rintro (h | ⟨j, hj1, hj2, hj3⟩)
    · rcases Bool.or_eq_true_iff.mp h with h | h
      · exact Or.inl h
      · exact Or.inr ⟨i, le_refl i, hik, h⟩
    · exact Or.inr ⟨j, by omega, hj2, hj3⟩
  · rintro (h | ⟨j, hj1, hj2, hj3⟩)
    · exact Or.inl (by simp [h])
    · by_cases hji : j = i
      · subst hji
        exact Or.inl (by simp [hj3])
      · exact Or.inr ⟨j, by omega, hj2, hj3⟩

theorem sawFrom_self (status : ℕ → MediaStatus) (saw0 : Bool) (i : ℕ) :
    sawFrom status saw0 i i ↔ (saw0 || playActive (status i)) = true := by
  unfold sawFrom
  constructor
  · rintro (h | ⟨j, hj1, hj2, hj3⟩)
    · simp [h]
    · have hji : j = i := by omega
      subst hji
      simp [hj3]
  · intro h
    rcases Bool.or_eq_true_iff.mp h with h | h
    · exact Or.inl h
    · exact Or.inr ⟨i, le_refl i, le_refl i, h⟩

theorem pollLoop_ticks_ge (status : ℕ → MediaStatus) (stop : ℕ → Bool) :
    ∀ (fuel i : ℕ) (s : PollState) (r : PollResult),
      pollLoop status stop fuel i s = some r → i ≤ r.ticks := by
  intro fuel
  induction fuel with
  | zero => intro i s r h; cases h
  | succ fuel ih =>
    intro i s r h
    rw [pollLoop] at h
    by_cases hg : s.t < s.endTime ∧ stop (2 * i) = false
    · rw [if_pos hg] at h
      by_cases hs : stop (2 * i + 1) = true
      · rw [if_pos hs] at h
        cases h
        exact Nat.le_succ i
      · rw [if_neg hs] at h
        dsimp only at h
        by_cases hb : ((pollStepState status i s).sawPlaying &&
            (status i).player_is_idle) = true
        · rw [if_pos hb] at h
          cases h
          exact Nat.le_succ i
        · rw [if_neg hb] at h
          have := ih (i + 1) (pollStepState status i s) r h
          omega
    · rw [if_neg hg] at h
      cases h
      exact le_refl i

theorem pollLoop_durationSet_stable (status : ℕ → MediaStatus)
    (stop : ℕ → Bool) :
    ∀ (fuel i : ℕ) (s : PollState) (r : PollResult),
      s.durationSet = true → pollLoop status stop fuel i s = some r →
      r.final.durationSet = true ∧ r.final.endTime = s.endTime ∧
        r.final.resets = s.resets := by
  intro fuel
  induction fuel with
  | zero => intro i s r _ h; cases h
  | succ fuel ih =>
    intro i s r hd h
    rw [pollLoop] at h
    by_cases hg : s.t < s.endTime ∧ stop (2 * i) = false
    · rw [if_pos hg] at h
      by_cases hs : stop (2 * i + 1) = true
      · rw [if_pos hs] at h
        cases h
        exact ⟨hd, rfl, rfl⟩
      · rw [if_neg hs] at h
        dsimp only at h
        have hrec : ((s.sawPlaying || playActive (status i)) &&
            !s.durationSet && ((status i).duration).isSome) = false := by
          rw [hd]
          simp
        have hd' : (pollStepState status i s).durationSet = true := by
          rw [pollStepState_durationSet_eq, hrec]
          simpa using hd
        have hE' : (pollStepState status i s).endTime = s.endTime := by
          rw [pollStepState_endTime_eq, hrec]
          simp
        have hres' : (pollStepState status i s).resets = s.resets := by
          rw [pollStepState_resets_eq, hrec]
          simp
        by_cases hb : ((pollStepState status i s).sawPlaying &&
            (status i).player_is_idle) = true
        · rw [if_pos hb] at h
          cases h
          exact ⟨hd', hE', hres'⟩
        · rw [if_neg hb] at h
          have := ih (i + 1) (pollStepState status i s) r hd' h
          rw [hE', hres'] at this
          exact this
    · rw [if_neg hg] at h
      cases h
      exact ⟨hd, rfl, rfl⟩

theorem pollLoop_resets_inv (status : ℕ → MediaStatus) (stop : ℕ → Bool) :
    ∀ (fuel i : ℕ) (s : PollState) (r : PollResult),
      s.resets = (if s.durationSet then 1 else 0) →
      pollLoop status stop fuel i s = some r →
      r.final.resets = (if r.final.durationSet then 1 else 0) := by
  intro fuel
  induction fuel with
  | zero => intro i s r _ h; cases h
  | succ fuel ih =>
    intro i s r hres h
    rw [pollLoop] at h
    by_cases hg : s.t < s.endTime ∧ stop (2 * i) = false
    · rw [if_pos hg] at h
      by_cases hs : stop (2 * i + 1) = true
      · rw [if_pos hs] at h
        cases h
        exact hres
      · rw [if_neg hs] at h
        dsimp only at h
        have hres' : (pollStepState status i s).resets =
            (if (pollStepState status i s).durationSet then 1 else 0) := by
          rw [pollStepState_resets_eq, pollStepState_durationSet_eq]
          by_cases hrec : ((s.sawPlaying || playActive (status i)) &&
              !s.durationSet && ((status i).duration).isSome) = true
          · rw [if_pos hrec, if_pos hrec, if_pos rfl]
            have hdf : s.durationSet = false := by
              rcases hdf : s.durationSet with _ | _
              · rfl
              · rw [hdf] at hrec
                simp at hrec
            rw [hdf] at hres
            simp at hres
            omega
          · rw [if_neg hrec, if_neg hrec]
            exact hres
        by_cases hb : ((pollStepState status i s).sawPlaying &&
            (status i).player_is_idle) = true
        · rw [if_pos hb] at h
          cases h
          exact hres'
        · rw [if_neg hb] at h
          exact ih (i + 1) (pollStepState status i s) r hres' h
    · rw [if_neg hg] at h
      cases h
      exact hres

theorem pollLoop_completed_spec (status : ℕ → MediaStatus) (stop : ℕ → Bool)
    (hstop : ∀ j, stop j = false) :
    ∀ (fuel i : ℕ) (s : PollState) (r : PollResult),
      pollLoop status stop fuel i s = some r →
      (r.playbackCompleted = true →
        i < r.ticks ∧ (status (r.ticks - 1)).player_is_idle = true ∧
          sawFrom status s.sawPlaying i (r.ticks - 1) ∧
          (∀ k, i ≤ k → k < r.ticks - 1 →
            ¬((status k).player_is_idle = true ∧
              sawFrom status s.sawPlaying i k))) ∧
      (r.playbackCompleted = false →
        ∀ k, i ≤ k → k < r.ticks →
          ¬((status k).player_is_idle = true ∧
            sawFrom status s.sawPlaying i k)) := by
  intro fuel
  induction fuel with
  | zero => intro i s r h; cases h
  | succ fuel ih =>
    intro i s r h
    rw [pollLoop_succ status stop fuel i s (hstop _) (hstop _)] at h
    by_cases hg : s.t < s.endTime
    · rw [if_pos hg] at h
      have hsaweq : (pollStepState status i s).sawPlaying =
          (s.sawPlaying || playActive (status i)) := rfl
      by_cases hb : ((pollStepState status i s).sawPlaying &&
          (status i).player_is_idle) = true
      · rw [if_pos hb] at h
        cases h
        dsimp only
        rw [hsaweq] at hb
        have hb1 := (Bool.and_eq_true _ _).mp hb
        refine ⟨fun _ => ⟨Nat.lt_succ_self i, ?_, ?_, ?_⟩,
          fun hf => by simp at hf⟩
        · simpa using hb1.2
        · rw [Nat.add_sub_cancel]
          exact (sawFrom_self status s.sawPlaying i).mpr hb1.1
        · intro k hk1 hk2
          rw [Nat.add_sub_cancel] at hk2
          omega
      · rw [if_neg hb] at h
        have hnotbreak : ¬ ((s.sawPlaying || playActive (status i)) = true ∧
            (status i).player_is_idle = true) := by
          rintro ⟨ha, hidle⟩
          apply hb
          rw [hsaweq, ha, hidle]
          rfl
        have hspec := ih (i + 1) (pollStepState status i s) r h
        have hticks := pollLoop_ticks_ge status stop fuel (i + 1) _ r h
        constructor
        · intro hc
          obtain ⟨h1, h2, h3, h4⟩ := hspec.1 hc
          rw [hsaweq] at h3 h4
          refine ⟨by omega, h2, ?_, ?_⟩
          · exact (sawFrom_succ status s.sawPlaying i (r.ticks - 1)
              (by omega)).mp h3
          · intro k hk1 hk2
            by_cases hki : k = i
            · rintro ⟨hidle, hsawk⟩
              rw [hki] at hidle hsawk
              exact hnotbreak ⟨(sawFrom_self status s.sawPlaying i).mp hsawk,
                hidle⟩
            · rintro ⟨hidle, hsawk⟩
              exact h4 k (by omega) (by omega)
                ⟨hidle, (sawFrom_succ status s.sawPlaying i k (by omega)).mpr
                  hsawk⟩
        · intro hc
          have hnone := hspec.2 hc
          intro k hk1 hk2
          by_cases hki : k = i
          · rintro ⟨hidle, hsawk⟩
            rw [hki] at hidle hsawk
            exact hnotbreak ⟨(sawFrom_self status s.sawPlaying i).mp hsawk,
              hidle⟩
          · rintro ⟨hidle, hsawk⟩
            refine hnone k (by omega) hk2 ⟨hidle, ?_⟩
            rw [hsaweq]
            exact (sawFrom_succ status s.sawPlaying i k (by omega)).mpr hsawk
    · rw [if_neg hg] at h
      cases h
      dsimp only
      refine ⟨fun hf => by simp at hf, fun _ => ?_⟩
      intro k hk1 hk2
      omega

theorem pollLoop_duration_spec (status : ℕ → MediaStatus) (stop : ℕ → Bool)
    (hstop : ∀ j, stop j = false) :
    ∀ (fuel i : ℕ) (s : PollState) (r : PollResult),
      s.durationSet = false →
      pollLoop status stop fuel i s = some r →
      (r.final.durationSet = true ↔
        ∃ k, i ≤ k ∧ k < r.ticks ∧ sawFrom status s.sawPlaying i k ∧
          ((status k).duration).isSome = true) ∧
      (r.final.durationSet = true →
        ∃ k d, i ≤ k ∧ k < r.ticks ∧ (status k).duration = some d ∧
          sawFrom status s.sawPlaying i k ∧
          (∀ m, i ≤ m → m < k →
            ¬(sawFrom status s.sawPlaying i m ∧
              ((status m).duration).isSome = true)) ∧
          r.final.endTime = s.t + ((k + 1 - i : ℕ) : ℚ) / 2 + d + 5) ∧
      (r.final.durationSet = false → r.final.endTime = s.endTime) := by
  intro fuel
  induction fuel with
  | zero => intro i s r _ h; cases h
  | succ fuel ih =>
    intro i s r hd h
    rw [pollLoop_succ status stop fuel i s (hstop _) (hstop _)] at h
    by_cases hg : s.t < s.endTime
    · rw [if_pos hg] at h
      have hsw : (pollStepState status i s).sawPlaying =
          (s.sawPlaying || playActive (status i)) := rfl
      by_cases hrec : ((s.sawPlaying || playActive (status i)) &&
          !s.durationSet && ((status i).duration).isSome) = true
      · -- the deadline is recomputed at this very tick
        have hrc := hrec
        rw [hd] at hrc
        simp only [Bool.not_false, Bool.and_true] at hrc
        obtain ⟨hsaw', hisSome⟩ := (Bool.and_eq_true _ _).mp hrc
        obtain ⟨dv, hdv⟩ := Option.isSome_iff_exists.mp hisSome
        have hds' : (pollStepState status i s).durationSet = true := by
          rw [pollStepState_durationSet_eq, if_pos hrec]
        have hE' : (pollStepState status i s).endTime =
            s.t + 1 / 2 + dv + 5 := by
          rw [pollStepState_endTime_eq, if_pos hrec, hdv]
          rfl
        have hone : ((i + 1 - i : ℕ) : ℚ) = 1 := by
          rw [show i + 1 - i = 1 by omega]
          norm_num
        by_cases hb : ((pollStepState status i s).sawPlaying &&
            (status i).player_is_idle) = true
        · rw [if_pos hb] at h
          cases h
          dsimp only
          refine ⟨⟨fun _ => ⟨i, le_refl i, Nat.lt_succ_self i,
              (sawFrom_self status s.sawPlaying i).mpr hsaw', hisSome⟩,
            fun _ => hds'⟩, fun _ => ?_, fun hF => absurd hds' (by simp [hF])⟩
          refine ⟨i, dv, le_refl i, Nat.lt_succ_self i, hdv,
            (sawFrom_self status s.sawPlaying i).mpr hsaw',
            fun m hm1 hm2 => absurd hm1 (by omega), ?_⟩
          rw [hE', hone]
        · rw [if_neg hb] at h
          obtain ⟨hfT, hfE, -⟩ :=
            pollLoop_durationSet_stable status stop fuel (i + 1)
              (pollStepState status i s) r hds' h
          have hticks := pollLoop_ticks_ge status stop fuel (i + 1) _ r h
          refine ⟨⟨fun _ => ⟨i, le_refl i, by omega,
              (sawFrom_self status s.sawPlaying i).mpr hsaw', hisSome⟩,
            fun _ => hfT⟩, fun _ => ?_, fun hF => absurd hfT (by simp [hF])⟩
          refine ⟨i, dv, le_refl i, by omega, hdv,
            (sawFrom_self status s.sawPlaying i).mpr hsaw',
            fun m hm1 hm2 => absurd hm1 (by omega), ?_⟩
          rw [hfE, hE', hone]
      · -- no recomputation at this tick
        have hni : ¬((s.sawPlaying || playActive (status i)) = true ∧
            ((status i).duration).isSome = true) := by
          rintro ⟨h1, h2⟩
          apply hrec
          rw [hd, h1, h2]
          rfl
        have hds' : (pollStepState status i s).durationSet = false := by
          rw [pollStepState_durationSet_eq, if_neg hrec]
          exact hd
        have hE' : (pollStepState status i s).endTime = s.endTime := by
          rw [pollStepState_endTime_eq, if_neg hrec]
        have ht' : (pollStepState status i s).t = s.t + 1 / 2 := rfl
        by_cases hb : ((pollStepState status i s).sawPlaying &&
            (status i).player_is_idle) = true
        · rw [if_pos hb] at h
          cases h
          dsimp only
          refine ⟨⟨fun hT => absurd hT (by simp [hds']), fun hex => ?_⟩,
            fun hT => absurd hT (by simp [hds']), fun _ => hE'⟩
          obtain ⟨k, hk1, hk2, hsawk, hsk⟩ := hex
          have hki : k = i := by omega
          rw [hki] at hsawk hsk
          exact absurd ⟨(sawFrom_self status s.sawPlaying i).mp hsawk, hsk⟩ hni
        · rw [if_neg hb] at h
          obtain ⟨iff', spec', unch'⟩ :=
            ih (i + 1) (pollStepState status i s) r hds' h
          simp only [hsw, ht', hE'] at iff' spec' unch'
          refine ⟨⟨fun hT => ?_, fun hex => ?_⟩, fun hT => ?_, fun hF => unch' hF⟩
          · obtain ⟨k, hk1, hk2, hsawk, hsk⟩ := iff'.mp hT
            exact ⟨k, by omega, hk2,
              (sawFrom_succ status s.sawPlaying i k (by omega)).mp hsawk, hsk⟩
          · obtain ⟨k, hk1, hk2, hsawk, hsk⟩ := hex
            by_cases hki : k = i
            · rw [hki] at hsawk hsk
              exact absurd ⟨(sawFrom_self status s.sawPlaying i).mp hsawk,
                hsk⟩ hni
            · exact iff'.mpr ⟨k, by omega, hk2,
                (sawFrom_succ status s.sawPlaying i k (by omega)).mpr hsawk,
                hsk⟩
          · obtain ⟨k, d, hk1, hk2, hdur, hsawk, hmin, hE⟩ := spec' hT
            refine ⟨k, d, by omega, hk2, hdur,
              (sawFrom_succ status s.sawPlaying i k (by omega)).mp hsawk,
              fun m hm1 hm2 => ?_, ?_⟩
            · by_cases hmi : m = i
              · rintro ⟨hsawm, hsm⟩
                rw [hmi] at hsawm hsm
                exact hni ⟨(sawFrom_self status s.sawPlaying i).mp hsawm, hsm⟩
              · rintro ⟨hsawm, hsm⟩
                exact hmin m (by omega) hm2
                  ⟨(sawFrom_succ status s.sawPlaying i m (by omega)).mpr hsawm,
                    hsm⟩
            · rw [hE]
              rw [show k + 1 - (i + 1) = k - i by omega,
                show k + 1 - i = (k - i) + 1 by omega]
              push_cast
              ring
    · rw [if_neg hg] at h
      cases h
      dsimp only
      refine ⟨⟨fun hT => absurd hT (by simp [hd]), fun hex => ?_⟩,
        fun hT => absurd hT (by simp [hd]), fun _ => rfl⟩
      obtain ⟨k, hk1, hk2, -, -⟩ := hex
      omega

theorem sawFrom_false_zero (status : ℕ → MediaStatus) (k : ℕ) :
    sawFrom status false 0 k ↔ sawPlayingBy status k := by
  unfold sawFrom sawPlayingBy
  constructor
  · rintro (h | ⟨j, hj1, hj2, hj3⟩)
    · simp at h
    · exact ⟨j, hj2, hj3⟩
  · rintro ⟨j, hj1, hj2⟩
    exact Or.inr ⟨j, Nat.zero_le j, hj1, hj2⟩

/-- C7: for every terminating run of the poll loop with the stop event never
set: `playbackCompleted` is true exactly when some executed poll tick
reported idle after playing/paused had been observed on an earlier-or-same
tick; when it is true the loop exited immediately on the first such tick
(so completion is never reported before playing/paused has been observed);
`endTime` is recomputed at most once (`resets ≤ 1`, and exactly when
`durationSet` was latched); `durationSet` is latched exactly when some
executed tick had `sawPlaying` with a known reported duration, and at the
first such tick the deadline became the then-current time plus the reported
duration plus five seconds; if no recomputation happened, the deadline is
still the initial `max(15, est + 10)` one. -/
theorem pollLoop_completion_characterization (status : ℕ → MediaStatus)
    (stop : ℕ → Bool) (fuel : ℕ) (t0 est : ℚ) (r : PollResult)
    (hstop : ∀ j, stop j = false)
    (h : pollLoop status stop fuel 0 (pollInit t0 est) = some r) :
    (r.playbackCompleted = true ↔
      ∃ k, k < r.ticks ∧ (status k).player_is_idle = true ∧
        sawPlayingBy status k) ∧
    (r.playbackCompleted = true →
      (status (r.ticks - 1)).player_is_idle = true ∧
      sawPlayingBy status (r.ticks - 1) ∧
      ∀ k, k < r.ticks - 1 →
        ¬((status k).player_is_idle = true ∧ sawPlayingBy status k)) ∧
    (r.final.resets ≤ 1 ∧
      r.final.resets = (if r.final.durationSet then 1 else 0)) ∧
    (r.final.durationSet = true ↔
      ∃ k, k < r.ticks ∧ sawPlayingBy status k ∧
        ((status k).duration).isSome = true) ∧
    (r.final.durationSet = true →
      ∃ k d, k < r.ticks ∧ (status k).duration = some d ∧
        sawPlayingBy status k ∧
        (∀ m, m < k → ¬(sawPlayingBy status m ∧
          ((status m).duration).isSome = true)) ∧
        r.final.endTime = t0 + ((k + 1 : ℕ) : ℚ) / 2 + d + 5) ∧
    (r.final.durationSet = false →
      r.final.endTime = t0 + initialDeadline est) := by
  have hsaw0 : (pollInit t0 est).sawPlaying = false := rfl
  have hd0 : (pollInit t0 est).durationSet = false := rfl
  have ht0 : (pollInit t0 est).t = t0 := rfl
  have hE0 : (pollInit t0 est).endTime = t0 + initialDeadline est := rfl
  have hcs := pollLoop_completed_spec status stop hstop fuel 0
    (pollInit t0 est) r h
  have hds := pollLoop_duration_spec status stop hstop fuel 0
    (pollInit t0 est) r hd0 h
  have hres := pollLoop_resets_inv status stop fuel 0 (pollInit t0 est) r
    rfl h
  simp only [hsaw0, sawFrom_false_zero] at hcs hds
  simp only [ht0, hE0, Nat.sub_zero] at hds
  refine ⟨⟨fun hc => ?_, fun hex => ?_⟩, fun hc => ?_, ⟨?_, hres⟩,
    ⟨fun hT => ?_, fun hex => ?_⟩, fun hT => ?_, fun hF => hds.2.2 hF⟩
  · obtain ⟨h1, h2, h3, -⟩ := hcs.1 hc
    exact ⟨r.ticks - 1, by omega, h2, h3⟩
  · obtain ⟨k, hk1, hk2, hk3⟩ := hex
    rcases hc : r.playbackCompleted with _ | _
    · exact absurd ⟨hk2, hk3⟩ (hcs.2 hc k (Nat.zero_le k) hk1)
    · rfl
  · obtain ⟨-, h2, h3, h4⟩ := hcs.1 hc
    exact ⟨h2, h3, fun k hk hpair => h4 k (Nat.zero_le k) hk hpair⟩
  · rw [hres]
    split <;> omega
  · obtain ⟨k, -, hk2, hk3, hk4⟩ := hds.1.mp hT
    exact ⟨k, hk2, hk3, hk4⟩
  · obtain ⟨k, hk1, hk2, hk3⟩ := hex
    exact hds.1.mpr ⟨k, Nat.zero_le k, hk1, hk2, hk3⟩
  · obtain ⟨k, d, -, hk2, hk3, hk4, hk5, hk6⟩ := hds.2.1 hT
    exact ⟨k, d, hk2, hk3, hk4,
      fun m hm hpair => hk5 m (Nat.zero_le m) hm hpair, hk6⟩

/-- Witness for C7: the player reports playing with duration 1 on tick 0
and idle on tick 1; the theorem's completion characterization forces
`playbackCompleted = true` for the computed run. -/
theorem pollLoop_completion_characterization_witness :
    PollResult.playbackCompleted
      { playbackCompleted := true, ticks := 2,
        final := { t := 1, endTime := 13 / 2, sawPlaying := true,
                   durationSet := true, resets := 1 } } = true := by
  have h : pollLoop
      (fun i => if i = 0 then playingMediaStatus false (some 1)
        else idleMediaStatus)
      (fun _ => false) 5 0 (pollInit 0 0) =
      some { playbackCompleted := true, ticks := 2,
             final := { t := 1, endTime := 13 / 2, sawPlaying := true,
                        durationSet := true, resets := 1 } } := by
    norm_num [pollLoop, pollStepState, pollInit, initialDeadline,
      playingMediaStatus, idleMediaStatus]
  exact (pollLoop_completion_characterization
      (fun i => if i = 0 then playingMediaStatus false (some 1)
        else idleMediaStatus)
      (fun _ => false) 5 0 0 _ (fun j => rfl) h).1.mpr
    ⟨1, by decide, rfl, ⟨0, by decide, rfl⟩⟩

end GooglePlugin
